import Mathlib

/-!
A shallow embedding of `src/procore.py` (classes `Action`, `Actions`, `Manager`)
and proofs about it.

Modelling conventions:

* Python byte strings (`bytes`) are modelled as Lean `String`s over their
  characters; all inputs exercised here are ASCII, where `bytes.decode()` is
  the identity, so `data.decode()` in `Action.perform_action` is modelled as
  the identity function.
* Python `re` patterns are modelled by Mathlib's `RegularExpression Char`.
  `re.match(p, s)` tests whether `p` matches at the *start* of `s`, i.e.
  whether some prefix of `s` is in the language of `p`; `re.sub(p, "", s)`
  deletes the successive non-overlapping leftmost matches of `p` in `s`.
  Python's backtracking engine picks the greedy first match at each position;
  for the unambiguous patterns this repository uses (such as `\d+`) that is
  the longest match at that position, which is how `reSubEmpty` is defined.
* A coroutine that can raise is modelled with `Except`; when side effects
  performed before the exception must stay observable, the result is a pair
  of the effects so far and an `Except` outcome.
-/

namespace Procore

open RegularExpression

/-- Python `bytes` values, modelled as strings of their (ASCII) characters. -/
abbrev Bytes := String

/-- A compiled Python regular expression (`re.Pattern`), restricted to the
regular fragment the repository uses. -/
abbrev PyRegex := RegularExpression Char

/-- `re.match(r, s)`: the pattern is anchored at position 0, so a match exists
exactly when some prefix of `s` (including the empty one) is in the language
of `r`. -/
def reMatch (r : PyRegex) (s : String) : Bool :=
  s.data.inits.any fun p => r.rmatch p

/-- Length of the longest prefix of `s` matching `r` (the match Python's
greedy backtracking engine finds at this position for the unambiguous
patterns used by this repository), or `none` when no prefix matches. -/
def longestMatchLen (r : PyRegex) (s : List Char) : Option Nat :=
  (List.range (s.length + 1)).reverse.find? fun n => r.rmatch (s.take n)

/-- Core of `re.sub(r, "", s)` on character lists: scan left to right; at each
position delete the longest (= greedy-first) nonempty match and continue after
it, otherwise keep the character and move on.  An empty match contributes
nothing because the replacement is the empty string.  The scan consumes at
least one character per step, so `fuel = l.length` always suffices; the fuel
argument only makes the recursion structural. -/
def subEmptyList (r : PyRegex) : Nat → List Char → List Char
  | _, [] => []
  | 0, l => l
  | fuel + 1, c :: cs =>
    match longestMatchLen r (c :: cs) with
    | some (n + 1) => subEmptyList r fuel (cs.drop n)
    | _ => c :: subEmptyList r fuel cs

/-- `re.sub(r, "", s)`: remove every (leftmost, non-overlapping) match of `r`
from `s`. -/
def reSubEmpty (r : PyRegex) (s : String) : String :=
  ⟨subEmptyList r s.data.length s.data⟩

/-- The regular expression of a literal string: its characters in sequence. -/
def lit (s : String) : PyRegex :=
  s.data.foldr (fun c r => char c * r) 1

/-- Python's `\d` character set, on the ASCII inputs exercised here: any one
of the ten decimal digit characters. -/
def digitSet : PyRegex :=
  ("0123456789".data.map char).foldr (· + ·) 0

/-- Python's `\d+`: one or more decimal digits. -/
def digitPlus : PyRegex :=
  digitSet * digitSet.star

/-- The condition pattern source `^ERROR`: under `re.match` the pattern is
already anchored at position 0, where `^` also matches, so the compiled
pattern accepts exactly what the literal `ERROR` accepts. -/
def patCaretERROR : PyRegex :=
  lit "ERROR"

/-- A Python value as far as the embedded fragment observes it: the rule
engine's coroutines either fall off their body (returning `None`) or would
have to return a boolean for the spec's contract to hold. -/
inductive PyValue where
  | none
  | bool (b : Bool)
deriving DecidableEq

/-- The exceptions the embedded fragment can raise. -/
inductive PyExc where
  /-- `AttributeError`: an attribute (here always `_actions` on an `Actions`
  instance) was accessed but never assigned. -/
  | attributeError
  /-- `re.error` raised by `re.compile` on the malformed source `src`. -/
  | reError (src : String)
  /-- `ModuleNotFoundError` raised by `import_module` on an unresolvable name. -/
  | moduleNotFoundError (name : String)
  /-- an exception raised by the action callable identified by `id` when it
  was invoked with `text`. -/
  | callableError (id : Nat) (text : String)
deriving DecidableEq

/-- An action callable, identified by `id`; `failsOn text` says whether
invoking it on `text` raises.  A successful invocation's only observable
effect here is the record `(id, text)` of the call. -/
structure ActionCallable where
  id : Nat
  failsOn : String → Bool

/-- `class Action` (procore.py lines 13-34).  `Action.__init__` stores the
compiled condition, the callable and the remove-pattern list, and also sets a
(never read) `self._actions = []`, modelled by the `_actions` field. -/
structure Action where
  _condition : PyRegex
  _callable : ActionCallable
  _remove_patterns : List PyRegex
  _actions : List Unit

/-- `Action.__init__(condition, action_callable, remove_patterns)`: lines
14-20 of procore.py; sets `self._actions = []`. -/
def Action.init (condition : PyRegex) (action_callable : ActionCallable)
    (remove_patterns : List PyRegex) : Action :=
  Action.mk condition action_callable remove_patterns []

deriving instance DecidableEq for Except

/-- Result of running one of the engine's coroutines: the invocations
`(callable id, text)` performed before it finished or raised, and its outcome
(a returned value, or a propagated exception). -/
structure EvalResult where
  invocations : List (Nat × String)
  outcome : Except PyExc PyValue
deriving DecidableEq

/-- `Action.perform_action(data)` (procore.py lines 22-34): decode the data,
test it against the condition with `re.match`; on a match run every remove
pattern in order as a `re.sub(pattern, "", ...)` pass over the result of the
previous pass, then call the callable on the final text.  The body has no
`try`/`except`, so an exception raised by the callable propagates; the
function has no `return` statement, so it returns `None`. -/
def Action.perform_action (a : Action) (data : Bytes) : EvalResult :=
  let decoded_data := data
  if reMatch a._condition decoded_data then
    let final := a._remove_patterns.foldl (fun t p => reSubEmpty p t) decoded_data
    if a._callable.failsOn final then
      EvalResult.mk [(a._callable.id, final)]
        (Except.error (PyExc.callableError a._callable.id final))
    else
      EvalResult.mk [(a._callable.id, final)] (Except.ok PyValue.none)
  else
    EvalResult.mk [] (Except.ok PyValue.none)

/-- `class Actions` (procore.py lines 37-69).  The class has no `__init__`
and never assigns `self._actions`, so on a fresh instance that attribute does
not exist: this is modelled by `Option`, with `none` for "attribute missing"
(accessing it raises `AttributeError`). -/
structure Actions where
  _actions : Option (List Action)

/-- `Actions()`: a freshly constructed instance, on which no attribute has
ever been assigned. -/
def Actions.fresh : Actions :=
  Actions.mk Option.none

/-- The loop body sequence of `Actions.perform_actions` over a known rule
list: `await action.perform_action(data)` for each action in order; an
exception propagates out and aborts the remaining iterations, while the
invocations already performed remain observable. -/
def performActionsList : List Action → Bytes → EvalResult
  | [], _ => EvalResult.mk [] (Except.ok PyValue.none)
  | a :: rest, data =>
    let r := a.perform_action data
    match r.outcome with
    | Except.error e => EvalResult.mk r.invocations (Except.error e)
    | Except.ok _ =>
      let r2 := performActionsList rest data
      EvalResult.mk (r.invocations ++ r2.invocations) r2.outcome

/-- `Actions.perform_actions(data)` (procore.py lines 61-69): iterate
`self._actions` and await `perform_action` on each.  There is no
`try`/`except` in the loop.  On a fresh instance, `self._actions` itself
raises `AttributeError`. -/
def Actions.perform_actions (self : Actions) (data : Bytes) : EvalResult :=
  match self._actions with
  | Option.none => EvalResult.mk [] (Except.error PyExc.attributeError)
  | Option.some acts => performActionsList acts data

/-- The source string of a pattern as it appears in a rule description:
either one that `re.compile` accepts (modelled by the compiled result) or a
malformed one on which `re.compile` raises `re.error`. -/
inductive PatternSrc where
  | ok (r : PyRegex)
  | bad (src : String)

/-- `re.compile` on a rule description's pattern source. -/
def reCompile : PatternSrc → Except PyExc PyRegex
  | PatternSrc.ok r => Except.ok r
  | PatternSrc.bad s => Except.error (PyExc.reError s)

/-- The `callable` entry of a rule description: a module path that
`import_module` resolves (the resulting object is then used as the action
callable) or one on which it raises. -/
inductive ModuleRef where
  | ok (c : ActionCallable)
  | missing (name : String)

/-- `importlib.import_module` on a rule description's `callable` entry. -/
def import_module : ModuleRef → Except PyExc ActionCallable
  | ModuleRef.ok c => Except.ok c
  | ModuleRef.missing n => Except.error (PyExc.moduleNotFoundError n)

/-- One rule description dict, as consumed by `Actions.register_actions`:
`condition`, optional `remove_patterns` (the empty list models both an absent
key and a present-but-empty one — both are falsy, with the same effect), and
`callable`. -/
structure RuleDesc where
  condition : PatternSrc
  remove_patterns : List PatternSrc
  callable : ModuleRef

/-- Result of `Actions.register_actions`: the `self._actions` state
afterwards (mutations performed before an exception persist) and the outcome. -/
structure RegisterResult where
  state : Option (List Action)
  outcome : Except PyExc PyValue

/-- The loop of `Actions.register_actions` (procore.py lines 46-59) over the
description list, threading the `self._actions` state.  Per iteration:
compile the condition, compile each remove pattern in order, import the
callable's module, then `self._actions.append(Action(...))`.  No step is
wrapped in a handler, so the first exception propagates and ends the loop;
appending raises `AttributeError` when `self._actions` was never assigned. -/
def registerList : Option (List Action) → List RuleDesc → RegisterResult
  | st, [] => RegisterResult.mk st (Except.ok PyValue.none)
  | st, action :: rest =>
    match reCompile action.condition with
    | Except.error e => RegisterResult.mk st (Except.error e)
    | Except.ok action_condition =>
      match action.remove_patterns.mapM reCompile with
      | Except.error e => RegisterResult.mk st (Except.error e)
      | Except.ok action_remove_patterns =>
        match import_module action.callable with
        | Except.error e => RegisterResult.mk st (Except.error e)
        | Except.ok action_callable =>
          match st with
          | Option.none => RegisterResult.mk Option.none (Except.error PyExc.attributeError)
          | Option.some l =>
            registerList
              (Option.some
                (l ++ [Action.init action_condition action_callable action_remove_patterns]))
              rest

/-- `Actions.register_actions(actions)` (procore.py lines 38-59). -/
def Actions.register_actions (self : Actions) (actions : List RuleDesc) : RegisterResult :=
  registerList self._actions actions

/-- An `asyncio.Queue`: its `maxsize` (0, the default, means the queue size
is infinite per the asyncio documentation) and its buffered items in FIFO
order. -/
structure AQueue where
  maxsize : Nat
  items : List Bytes
deriving DecidableEq

/-- `asyncio.Queue()` with the default `maxsize = 0` (unbounded) — the only
way `Manager.start` (procore.py lines 120-122) ever constructs a queue. -/
def newQueue : AQueue :=
  AQueue.mk 0 []

/-- `await queue.put(item)`: appends the item.  When a *bounded* queue is
full this coroutine suspends until a slot frees up — with no consumer that is
forever, modelled by `none`; it never raises `asyncio.QueueFull` (only the
unused `put_nowait` does), so the `except asyncio.QueueFull` branches in
`output_runner`/`error_runner` (procore.py lines 157-159 and 174-176) are
unreachable and do not appear in the runners' embeddings below. -/
def AQueue.put (q : AQueue) (item : Bytes) : Option AQueue :=
  if q.maxsize = 0 ∨ q.items.length < q.maxsize then
    Option.some (AQueue.mk q.maxsize (q.items ++ [item]))
  else
    Option.none

/-- The three queues `Manager.start` creates (procore.py lines 120-122),
named as the attributes they are assigned to. -/
structure ManagerQueues where
  _output_queue : AQueue
  _error_queue : AQueue
  _input_queue : AQueue
deriving DecidableEq

/-- The queue construction in `Manager.start`: three `asyncio.Queue()` with
the default (unbounded) maxsize.  The output queue and its reader task always
exist; the error queue's reader task is launched only when
`dedicated_stderr`, the input queue's writer task only when `manage_stdin`. -/
def Manager.start_queues : ManagerQueues :=
  ManagerQueues.mk newQueue newQueue newQueue

/-- `Manager.output_runner` (procore.py lines 148-161), driven by the
sequence of `proc.stdout.readline()` results.  `readline` yields each
produced line (nonempty) in order and `b""` at end of file; the loop also
ends once `proc.returncode` is set, which for a drained pipe coincides with
`readline` returning `b""`.  Each line is enqueued with `await queue.put`;
after the loop one terminal `b""` marker is enqueued.  `none` models the
runner suspended forever on a full bounded queue (impossible here: the queue
is unbounded). -/
def output_runner (q : AQueue) : List Bytes → Option AQueue
  | [] => q.put ""
  | data :: rest =>
    if data = "" then q.put ""
    else
      match q.put data with
      | Option.some q1 => output_runner q1 rest
      | Option.none => Option.none

/-- `Manager.error_runner` (procore.py lines 163-177): same reading loop as
`output_runner` (note the source reads `proc.stdout`, not `proc.stderr`),
but after the loop it enqueues nothing — there is no terminal marker — and
just returns. -/
def error_runner (q : AQueue) : List Bytes → Option AQueue
  | [] => Option.some q
  | data :: rest =>
    if data = "" then Option.some q
    else
      match q.put data with
      | Option.some q1 => error_runner q1 rest
      | Option.none => Option.none

/-- `bytes.endswith(suffix)`. -/
def endswith (s suffix : Bytes) : Bool :=
  suffix.data.isSuffixOf s.data

/-- `Manager.write(data)` (procore.py lines 141-146).  `returncode` is the
`Option.none`-when-still-running exit status the `Manager` observes on
`self._process`.  While the process runs, the data is enqueued onto the
input queue with `b"\r\n"` appended unless it already ends with it; after
exit the body is skipped: nothing is enqueued and nothing is raised. -/
def Manager.write (returncode : Option Int) (input_queue : AQueue) (data : Bytes) :
    Option AQueue :=
  match returncode with
  | Option.none =>
    if endswith data "\r\n" then input_queue.put data
    else input_queue.put (data ++ "\r\n")
  | Option.some _ => Option.some input_queue

/-- The final text `Action.perform_action` hands to the callable after a
match: the loop of lines 32-33 of procore.py, folding the `re.sub` passes
over the decoded data. -/
def finalText (a : Action) (data : Bytes) : String :=
  a._remove_patterns.foldl (fun t p => reSubEmpty p t) data

/-- The spec's phrasing of the removal transform, written as its own
recursion: each pattern, in registration order, is applied as one
substitution-to-empty-string pass to the output of the previous pass. -/
def removalPasses : List PyRegex → String → String
  | [], t => t
  | p :: ps, t => removalPasses ps (reSubEmpty p t)

/-- An action callable with identity `id` that never raises. -/
def okCallable (id : Nat) : ActionCallable :=
  ActionCallable.mk id (fun _ => false)

/-- An action callable with identity `id` that raises on every invocation. -/
def raisingCallable (id : Nat) : ActionCallable :=
  ActionCallable.mk id (fun _ => true)

/-- A rule whose condition (the empty pattern, which `re.match` always
satisfies) matches every line and whose callable (id 1) raises. -/
def matchAllRaising : Action :=
  Action.init 1 (raisingCallable 1) []

/-- A rule whose condition matches every line and whose callable (id 2)
succeeds. -/
def matchAllOk : Action :=
  Action.init 1 (okCallable 2) []

/-- The spec's example rule: condition `^ERROR`, removal pattern `\d+`,
with a callable (id 7) that never raises. -/
def errorRule : Action :=
  Action.init patCaretERROR (okCallable 7) [digitPlus]

/-- A rule description whose pattern compiles and whose callable resolves. -/
def goodDesc : RuleDesc :=
  RuleDesc.mk (PatternSrc.ok (lit "ok")) [] (ModuleRef.ok (okCallable 9))

/-- A rule description whose condition pattern does not compile
(`re.compile` raises `re.error` on the unbalanced source). -/
def badPatternDesc : RuleDesc :=
  RuleDesc.mk (PatternSrc.bad "[unclosed") [] (ModuleRef.ok (okCallable 9))

/-!  Helper lemmas shared by the claim theorems. -/

/-- `re.match` succeeds exactly when some prefix of the subject is in the
language of the pattern. -/
theorem reMatch_iff (r : PyRegex) (s : String) :
    reMatch r s = true ↔ ∃ p q, s.data = p ++ q ∧ p ∈ r.matches' := by
  unfold reMatch
  rw [List.any_eq_true]
  constructor
  · rintro ⟨p, hp, hm⟩
    rw [List.mem_inits] at hp
    obtain ⟨q, hq⟩ := hp
    exact ⟨p, q, hq.symm, (RegularExpression.rmatch_iff_matches' r p).mp hm⟩
  · rintro ⟨p, q, hpq, hm⟩
    refine ⟨p, ?_, (RegularExpression.rmatch_iff_matches' r p).mpr hm⟩
    rw [List.mem_inits]
    exact ⟨q, hpq.symm⟩

/-- The spec-side pass-by-pass recursion computes exactly the fold the code
performs. -/
theorem removalPasses_eq_finalText (a : Action) (data : Bytes) :
    removalPasses a._remove_patterns data = finalText a data := by
  unfold finalText
  generalize a._remove_patterns = ps
  induction ps generalizing data with
  | nil => rfl
  | cons p ps ih => simp [removalPasses, List.foldl_cons, ih]

/-- `perform_action` on a matching line: one invocation with the final text,
and the outcome is `None` or the callable's propagated exception. -/
theorem perform_action_of_match (a : Action) (data : Bytes)
    (h : reMatch a._condition data = true) :
    a.perform_action data =
      if a._callable.failsOn (finalText a data) then
        EvalResult.mk [(a._callable.id, finalText a data)]
          (Except.error (PyExc.callableError a._callable.id (finalText a data)))
      else
        EvalResult.mk [(a._callable.id, finalText a data)] (Except.ok PyValue.none) := by
  simp only [Action.perform_action, finalText, h, if_true]

/-- `perform_action` on a non-matching line does nothing and returns `None`. -/
theorem perform_action_of_no_match (a : Action) (data : Bytes)
    (h : reMatch a._condition data = false) :
    a.perform_action data = EvalResult.mk [] (Except.ok PyValue.none) := by
  simp only [Action.perform_action, h, Bool.false_eq_true, if_false]

/-- Evaluating a concatenated rule list whose first half raises nothing:
invocations concatenate and the second half decides the outcome. -/
theorem performActionsList_append (l1 l2 : List Action) (data : Bytes)
    (h : (performActionsList l1 data).outcome = Except.ok PyValue.none) :
    performActionsList (l1 ++ l2) data =
      EvalResult.mk
        ((performActionsList l1 data).invocations ++ (performActionsList l2 data).invocations)
        (performActionsList l2 data).outcome := by
  induction l1 with
  | nil => simp [performActionsList]
  | cons a rest ih =>
    simp only [performActionsList, List.cons_append] at h ⊢
    cases ho : (a.perform_action data).outcome with
    | error e =>
      simp only [ho] at h
      exact absurd h (by simp)
    | ok v =>
      simp only [ho, List.append_eq] at h ⊢
      rw [ih h]
      simp [List.append_assoc]

/-- Registering a concatenated description list whose first half raises
nothing: the second half continues from the state the first half reached. -/
theorem registerList_ok_append (l2 : List RuleDesc) :
    ∀ (l1 : List RuleDesc) (st st' : Option (List Action)),
      registerList st l1 = RegisterResult.mk st' (Except.ok PyValue.none) →
      registerList st (l1 ++ l2) = registerList st' l2 := by
  intro l1
  induction l1 with
  | nil =>
    intro st st' h
    simp only [registerList, RegisterResult.mk.injEq] at h
    rw [List.nil_append, h.1]
  | cons d ds ih =>
    intro st st' h
    simp only [registerList, List.cons_append] at h ⊢
    cases hc : reCompile d.condition with
    | error e =>
      simp only [hc] at h
      exact absurd h (by simp)
    | ok cond =>
      simp only [hc] at h ⊢
      cases hr : d.remove_patterns.mapM reCompile with
      | error e =>
        simp only [hr] at h
        exact absurd h (by simp)
      | ok rems =>
        simp only [hr] at h ⊢
        cases hm : import_module d.callable with
        | error e =>
          simp only [hm] at h
          exact absurd h (by simp)
        | ok c =>
          simp only [hm] at h ⊢
          cases st with
          | none =>
            simp only [RegisterResult.mk.injEq] at h
            exact absurd h.2 (by simp)
          | some l => exact ih _ _ h

/-- Enqueuing onto an unbounded queue always succeeds and appends. -/
theorem put_unbounded (init : List Bytes) (x : Bytes) :
    (AQueue.mk 0 init).put x = Option.some (AQueue.mk 0 (init ++ [x])) := by
  simp [AQueue.put]

/-- The output reader on an unbounded queue enqueues every produced line in
order and then the single terminal marker. -/
theorem output_runner_unbounded (lines : List Bytes) :
    ∀ init : List Bytes, (∀ l ∈ lines, l ≠ "") →
      output_runner (AQueue.mk 0 init) lines =
        Option.some (AQueue.mk 0 (init ++ (lines ++ [""]))) := by
  induction lines with
  | nil =>
    intro init _
    simp [output_runner, put_unbounded]
  | cons l rest ih =>
    intro init h
    have hl : l ≠ "" := h l (by simp)
    simp only [output_runner, if_neg hl, put_unbounded]
    rw [ih (init ++ [l]) fun x hx => h x (by simp [hx])]
    simp

/-- The error reader on an unbounded queue enqueues every produced line in
order and nothing else: no terminal marker. -/
theorem error_runner_unbounded (lines : List Bytes) :
    ∀ init : List Bytes, (∀ l ∈ lines, l ≠ "") →
      error_runner (AQueue.mk 0 init) lines =
        Option.some (AQueue.mk 0 (init ++ lines)) := by
  induction lines with
  | nil =>
    intro init _
    simp [error_runner]
  | cons l rest ih =>
    intro init h
    have hl : l ≠ "" := h l (by simp)
    simp only [error_runner, if_neg hl, put_unbounded]
    rw [ih (init ++ [l]) fun x hx => h x (by simp [hx])]
    simp

/-!  The claim theorems. -/

/-- C1 counterexample: with two always-matching rules registered where the
first rule's callable raises, `perform_actions` on line `"x"` propagates the
exception out of evaluation and the second rule's callable (id 2) is never
invoked: only the invocation by callable 1 is recorded. -/
theorem C1_counterexample :
    (Actions.mk (Option.some [matchAllRaising, matchAllOk])).perform_actions "x" =
      EvalResult.mk [(1, "x")] (Except.error (PyExc.callableError 1 "x")) := by
  decide

/-- C1 (corrected): `Actions.perform_actions` has no exception handler, so
when one rule's action callable raises during dispatch the exception
propagates out of evaluation, nothing is logged, and the rules registered
after the failing one are NOT evaluated on that line: the recorded
invocations are exactly those of the earlier rules plus the failing call,
with nothing from `post`. -/
theorem C1_action_exception_stops_evaluation
    (pre post : List Action) (a : Action) (data : Bytes)
    (hpre : (performActionsList pre data).outcome = Except.ok PyValue.none)
    (hmatch : reMatch a._condition data = true)
    (hfail : a._callable.failsOn (finalText a data) = true) :
    (Actions.mk (Option.some (pre ++ a :: post))).perform_actions data =
      EvalResult.mk
        ((performActionsList pre data).invocations ++ [(a._callable.id, finalText a data)])
        (Except.error (PyExc.callableError a._callable.id (finalText a data))) := by
  have ha : a.perform_action data =
      EvalResult.mk [(a._callable.id, finalText a data)]
        (Except.error (PyExc.callableError a._callable.id (finalText a data))) := by
    rw [perform_action_of_match a data hmatch, if_pos hfail]
  show performActionsList (pre ++ a :: post) data = _
  rw [performActionsList_append pre (a :: post) data hpre]
  simp only [performActionsList, ha]

/-- Witness for C1: the corrected theorem applied to the concrete two-rule
instance. -/
theorem C1_action_exception_stops_evaluation_witness :
    (performActionsList [] "x").outcome = Except.ok PyValue.none ∧
    reMatch matchAllRaising._condition "x" = true ∧
    matchAllRaising._callable.failsOn (finalText matchAllRaising "x") = true ∧
    (Actions.mk (Option.some ([] ++ matchAllRaising :: [matchAllOk]))).perform_actions "x" =
      EvalResult.mk
        ((performActionsList [] "x").invocations ++
          [(matchAllRaising._callable.id, finalText matchAllRaising "x")])
        (Except.error
          (PyExc.callableError matchAllRaising._callable.id (finalText matchAllRaising "x"))) :=
  ⟨rfl, by decide, rfl,
    C1_action_exception_stops_evaluation [] [matchAllOk] matchAllRaising "x" rfl (by decide) rfl⟩

/-- C2 counterexample: the Supervisor creates its output channel as
`asyncio.Queue()` with the default maxsize 0, i.e. unbounded; running the
output reader over three lines evicts nothing: the oldest line `"a"` is still
buffered at the front afterwards, together with every later line and the
terminal marker — there is no capacity at which newest-wins eviction occurs. -/
theorem C2_counterexample :
    Manager.start_queues._output_queue = AQueue.mk 0 [] ∧
    output_runner Manager.start_queues._output_queue ["a", "b", "c"] =
      Option.some (AQueue.mk 0 ["a", "b", "c", ""]) :=
  ⟨rfl, by decide⟩

/-- C2 (corrected): every channel the Supervisor creates is unbounded
(`asyncio.Queue()` with maxsize 0), and an awaited `put` never raises
`QueueFull`, so no eviction ever happens: for ANY sequence of N lines
produced before the consumer runs, the consumer afterwards sees all N lines
in their original order (followed by the output channel's terminal marker);
the buffered item count is N + 1, bounded by no fixed capacity. -/
theorem C2_unbounded_channel_keeps_all_lines (lines : List Bytes)
    (h : ∀ l ∈ lines, l ≠ "") :
    Manager.start_queues._output_queue.maxsize = 0 ∧
    ∃ q, output_runner Manager.start_queues._output_queue lines = Option.some q ∧
      q.items = lines ++ [""] ∧ q.items.length = lines.length + 1 := by
  refine ⟨rfl, AQueue.mk 0 (lines ++ [""]), ?_, rfl, by simp⟩
  simpa [Manager.start_queues, newQueue] using output_runner_unbounded lines [] h

/-- Witness for C2: the corrected theorem applied to a concrete two-line
stream. -/
theorem C2_unbounded_channel_keeps_all_lines_witness :
    (∀ l ∈ (["a", "b"] : List Bytes), l ≠ "") ∧
    (Manager.start_queues._output_queue.maxsize = 0 ∧
      ∃ q, output_runner Manager.start_queues._output_queue ["a", "b"] = Option.some q ∧
        q.items = ["a", "b"] ++ [""] ∧ q.items.length = (["a", "b"] : List Bytes).length + 1) :=
  ⟨by decide, C2_unbounded_channel_keeps_all_lines ["a", "b"] (by decide)⟩

/-- C3 counterexample: when the error stream ends after one line, the error
channel's reader (`Manager.error_runner`) leaves the error queue holding
exactly that line — it does not enqueue the terminal `b""` marker the claim
requires for every output-side channel, so a caller looping on reads of the
error channel never observes end-of-stream. -/
theorem C3_counterexample :
    error_runner newQueue ["e1"] = Option.some (AQueue.mk 0 ["e1"]) ∧
    error_runner newQueue ["e1"] ≠ Option.some (AQueue.mk 0 ["e1", ""]) := by
  decide

/-- C3 (corrected): of the Supervisor's output-side readers, only the output
channel's (`output_runner`) enqueues the terminal empty marker — exactly once,
when its stream ends — after which it exits; the error channel's reader
(`error_runner`) exits without enqueuing any marker. -/
theorem C3_only_output_channel_gets_marker (lines : List Bytes)
    (h : ∀ l ∈ lines, l ≠ "") :
    (∃ qo, output_runner newQueue lines = Option.some qo ∧
        qo.items = lines ++ [""] ∧ qo.items.count "" = 1) ∧
    (∃ qe, error_runner newQueue lines = Option.some qe ∧
        qe.items = lines ∧ qe.items.count "" = 0) := by
  have hno : "" ∉ lines := fun hmem => (h _ hmem) rfl
  constructor
  · refine ⟨AQueue.mk 0 (lines ++ [""]), ?_, rfl, ?_⟩
    · simpa [newQueue] using output_runner_unbounded lines [] h
    · simp [List.count_append, List.count_eq_zero.mpr hno]
  · refine ⟨AQueue.mk 0 lines, ?_, rfl, ?_⟩
    · simpa [newQueue] using error_runner_unbounded lines [] h
    · simp [List.count_eq_zero.mpr hno]

/-- Witness for C3: the corrected theorem applied to a concrete one-line
stream. -/
theorem C3_only_output_channel_gets_marker_witness :
    (∀ l ∈ (["err"] : List Bytes), l ≠ "") ∧
    ((∃ qo, output_runner newQueue ["err"] = Option.some qo ∧
        qo.items = ["err"] ++ [""] ∧ qo.items.count "" = 1) ∧
      (∃ qe, error_runner newQueue ["err"] = Option.some qe ∧
        qe.items = ["err"] ∧ qe.items.count "" = 0)) :=
  ⟨by decide, C3_only_output_channel_gets_marker ["err"] (by decide)⟩

/-- C4 counterexample: a registration list whose first description's pattern
fails to compile: `register_actions` ends with the raw `re.error` (there is
no `RuleCompileError`), and registration of the following well-formed
description does NOT proceed — the whole pass aborts with nothing
registered. -/
theorem C4_counterexample :
    Actions.fresh.register_actions [badPatternDesc, goodDesc] =
      RegisterResult.mk Option.none (Except.error (PyExc.reError "[unclosed")) :=
  rfl

/-- C4 (corrected): the first description whose pattern fails to compile
makes `re.compile` raise `re.error`, which propagates out of
`register_actions` immediately: the descriptions after it are never processed
(the result does not depend on `rest`), there is no per-description
reporting, and the registered-rule state stays whatever the earlier
descriptions had made it. -/
theorem C4_compile_failure_aborts_registration
    (st st' : Option (List Action)) (pre rest : List RuleDesc) (d : RuleDesc) (s : String)
    (hpre : registerList st pre = RegisterResult.mk st' (Except.ok PyValue.none))
    (hbad : d.condition = PatternSrc.bad s) :
    (Actions.mk st).register_actions (pre ++ d :: rest) =
      RegisterResult.mk st' (Except.error (PyExc.reError s)) := by
  show registerList st (pre ++ d :: rest) = _
  rw [registerList_ok_append (d :: rest) pre st st' hpre]
  simp only [registerList, hbad, reCompile]

/-- Witness for C4: the corrected theorem applied to the concrete
bad-then-good description list. -/
theorem C4_compile_failure_aborts_registration_witness :
    registerList (Option.some []) [] =
      RegisterResult.mk (Option.some []) (Except.ok PyValue.none) ∧
    badPatternDesc.condition = PatternSrc.bad "[unclosed" ∧
    (Actions.mk (Option.some [])).register_actions ([] ++ badPatternDesc :: [goodDesc]) =
      RegisterResult.mk (Option.some []) (Except.error (PyExc.reError "[unclosed")) :=
  ⟨rfl, rfl,
    C4_compile_failure_aborts_registration (Option.some []) (Option.some []) [] [goodDesc]
      badPatternDesc "[unclosed" rfl rfl⟩

/-- C5 (confirmed): when a rule's condition matches a line, the removal
patterns are applied in registration order, each substitution-to-empty-string
pass operating on the output of the previous pass, and the callable is
invoked exactly once with the final text; in particular the `^ERROR` / `\d+`
rule on `"ERROR 404 not found"` invokes its callable (id 7) exactly once with
`"ERROR  not found"`. -/
theorem C5_removal_passes_single_dispatch (a : Action) (data : Bytes)
    (h : reMatch a._condition data = true) :
    (a.perform_action data).invocations =
      [(a._callable.id, removalPasses a._remove_patterns data)] ∧
    errorRule.perform_action "ERROR 404 not found" =
      EvalResult.mk [(7, "ERROR  not found")] (Except.ok PyValue.none) := by
  constructor
  · rw [removalPasses_eq_finalText, perform_action_of_match a data h]
    cases hf : a._callable.failsOn (finalText a data) <;> simp [hf]
  · decide

/-- Witness for C5: the theorem applied to the spec's own example rule and
line. -/
theorem C5_removal_passes_single_dispatch_witness :
    reMatch errorRule._condition "ERROR 404 not found" = true ∧
    (errorRule.perform_action "ERROR 404 not found").invocations =
      [(errorRule._callable.id,
        removalPasses errorRule._remove_patterns "ERROR 404 not found")] :=
  ⟨by decide,
    (C5_removal_passes_single_dispatch errorRule "ERROR 404 not found" (by decide)).1⟩

/-- C6 counterexample: a rule whose condition matches the line `"hello"`
still returns `None` from `perform_action` — not the boolean `True` the claim
requires — so the return value does not report whether the condition
matched. -/
theorem C6_counterexample :
    reMatch matchAllOk._condition "hello" = true ∧
    (matchAllOk.perform_action "hello").outcome = Except.ok PyValue.none ∧
    (Except.ok PyValue.none : Except PyExc PyValue) ≠ Except.ok (PyValue.bool true) := by
  decide

/-- C6 (corrected): `perform_action` has no return statement: whenever the
callable does not raise, it returns `None` whether or not the condition
matched, so the match status is not observable from the return value.  (The
return value is independent of action failure only in that a failing action
instead aborts the call with a propagated exception.) -/
theorem C6_perform_action_returns_none (a : Action) (data : Bytes)
    (h : a._callable.failsOn (finalText a data) = false) :
    (a.perform_action data).outcome = Except.ok PyValue.none := by
  cases hm : reMatch a._condition data with
  | false => rw [perform_action_of_no_match a data hm]
  | true => rw [perform_action_of_match a data hm, if_neg (by simp [h])]

/-- Witness for C6: the corrected theorem applied to a concrete matching
rule and line. -/
theorem C6_perform_action_returns_none_witness :
    matchAllOk._callable.failsOn (finalText matchAllOk "hello") = false ∧
    (matchAllOk.perform_action "hello").outcome = Except.ok PyValue.none :=
  ⟨rfl, C6_perform_action_returns_none matchAllOk "hello" rfl⟩

/-- C7 (confirmed): while the process runs (`returncode is None`),
`Manager.write` enqueues the data onto the input channel with `b"\r\n"`
appended unless the data already ends with `b"\r\n"` (then it is enqueued
unchanged); once the process has exited, `write` is a no-op: it enqueues
nothing and raises nothing. -/
theorem C7_write_normalizes_and_noop_after_exit
    (q : AQueue) (data : Bytes) (rc : Int) (hq : q.maxsize = 0) :
    Manager.write Option.none q data =
      Option.some
        (AQueue.mk 0 (q.items ++ [if endswith data "\r\n" then data else data ++ "\r\n"])) ∧
    Manager.write (Option.some rc) q data = Option.some q := by
  constructor
  · cases he : endswith data "\r\n" <;> simp [Manager.write, he, AQueue.put, hq]
  · rfl

/-- Witness for C7: the theorem applied to a concrete queue, data and exit
code. -/
theorem C7_write_normalizes_and_noop_after_exit_witness :
    newQueue.maxsize = 0 ∧
    (Manager.write Option.none newQueue "ping" =
        Option.some
          (AQueue.mk 0 (newQueue.items ++
            [if endswith "ping" "\r\n" then "ping" else "ping" ++ "\r\n"])) ∧
      Manager.write (Option.some 0) newQueue "ping" = Option.some newQueue) :=
  ⟨rfl, C7_write_normalizes_and_noop_after_exit newQueue "ping" 0 rfl⟩

/-- C8 counterexample: a fresh `Actions` instance with a single-element
description list whose pattern is malformed fails with `re.error`, not
`AttributeError` — the pattern is compiled before `self._actions` is ever
touched — so not EVERY non-empty description list fails with
`AttributeError`. -/
theorem C8_counterexample :
    Actions.fresh.register_actions [badPatternDesc] =
      RegisterResult.mk Option.none (Except.error (PyExc.reError "[unclosed")) ∧
    PyExc.reError "[unclosed" ≠ PyExc.attributeError :=
  ⟨rfl, by decide⟩

/-- C8 (corrected): on a freshly constructed `Actions` instance,
`register_actions` on any non-empty description list whose first description
compiles and resolves raises `AttributeError` at the first append — before
any rule is stored — because `class Actions` never initializes the
`_actions` collection it appends to; only `Action` instances initialize an
`_actions` attribute (`Action.__init__` sets it to `[]`). -/
theorem C8_register_fails_attribute_error
    (d : RuleDesc) (rest : List RuleDesc)
    (cond : PyRegex) (rems : List PyRegex) (c : ActionCallable)
    (hc : reCompile d.condition = Except.ok cond)
    (hr : d.remove_patterns.mapM reCompile = Except.ok rems)
    (hm : import_module d.callable = Except.ok c) :
    Actions.fresh.register_actions (d :: rest) =
      RegisterResult.mk Option.none (Except.error PyExc.attributeError) ∧
    (Action.init cond c rems)._actions = [] := by
  refine ⟨?_, rfl⟩
  show registerList Option.none (d :: rest) = _
  simp only [registerList, hc, hr, hm]

/-- Witness for C8: the corrected theorem applied to a concrete well-formed
description. -/
theorem C8_register_fails_attribute_error_witness :
    reCompile goodDesc.condition = Except.ok (lit "ok") ∧
    goodDesc.remove_patterns.mapM reCompile = Except.ok [] ∧
    import_module goodDesc.callable = Except.ok (okCallable 9) ∧
    Actions.fresh.register_actions [goodDesc] =
      RegisterResult.mk Option.none (Except.error PyExc.attributeError) :=
  ⟨rfl, rfl, rfl,
    (C8_register_fails_attribute_error goodDesc [] (lit "ok") [] (okCallable 9)
      rfl rfl rfl).1⟩

/-- C9 (confirmed): a rule fires (its callable is invoked) exactly when its
condition, tested with `re.match`, matches a prefix of the decoded line — the
test is anchored at the start — so a condition whose pattern occurs only in
the middle of the line never fires: the `^ERROR` rule does nothing on
`"see ERROR here"`. -/
theorem C9_condition_anchored_at_start (a : Action) (data : Bytes) :
    ((a.perform_action data).invocations ≠ [] ↔
      ∃ p q, data.data = p ++ q ∧ p ∈ a._condition.matches') ∧
    errorRule.perform_action "see ERROR here" =
      EvalResult.mk [] (Except.ok PyValue.none) := by
  constructor
  · rw [← reMatch_iff]
    cases hm : reMatch a._condition data with
    | false => rw [perform_action_of_no_match a data hm]; simp
    | true =>
      rw [perform_action_of_match a data hm]
      cases hf : a._callable.failsOn (finalText a data) <;> simp [hf]
  · decide

/-- C10 (confirmed): `Manager.write` recognizes only the exact two-byte
suffix `b"\r\n"` as an existing terminator: data ending in a bare `b"\n"`
still gets `b"\r\n"` appended — writing `b"ping\n"` enqueues
`b"ping\n\r\n"` — and writing the empty byte string enqueues the bare
terminator `b"\r\n"`. -/
theorem C10_write_bare_newline (q : AQueue) (data : Bytes) (hq : q.maxsize = 0)
    (_h1 : endswith data "\n" = true) (h2 : endswith data "\r\n" = false) :
    Manager.write Option.none q data =
      Option.some (AQueue.mk 0 (q.items ++ [data ++ "\r\n"])) ∧
    Manager.write Option.none newQueue "ping\n" =
      Option.some (AQueue.mk 0 ["ping\n\r\n"]) ∧
    Manager.write Option.none newQueue "" = Option.some (AQueue.mk 0 ["\r\n"]) := by
  refine ⟨?_, by decide, by decide⟩
  simp [Manager.write, h2, AQueue.put, hq]

/-- Witness for C10: the theorem applied to the spec's `b"ping\n"` input. -/
theorem C10_write_bare_newline_witness :
    newQueue.maxsize = 0 ∧ endswith "ping\n" "\n" = true ∧
    endswith "ping\n" "\r\n" = false ∧
    Manager.write Option.none newQueue "ping\n" =
      Option.some (AQueue.mk 0 (newQueue.items ++ ["ping\n" ++ "\r\n"])) :=
  ⟨rfl, by decide, by decide,
    (C10_write_bare_newline newQueue "ping\n" rfl (by decide) (by decide)).1⟩

end Procore
